import Mathlib

/-!
Shallow embedding of src/main/main.c (restless-rabbit), the resumable
PIN-guessing loop. Storage is modeled as lists of already-tokenized values:
a file whose entries are whitespace/newline separated decimal tokens is
represented by the list of parsed int values, and an fscanf("%d") call reads
the next token or fails (setting the stdio end-of-file flag and leaving its
destination variable unchanged) when the tokens are exhausted. Device
readiness (tud_mounted) is modeled as always true; LED and timestamp side
effects are omitted. C int arithmetic is modeled by unbounded Int (no value
in the claims' scope overflows 32 bits).
-/

set_option maxRecDepth 4000

/-- Digit-extraction loop of send_passcode (main.c:141-145): while the value
is positive, push value mod 10 and divide the value by 10. The first argument
is fuel bounding the number of iterations; since the value strictly decreases
on every iteration, the starting value itself is sufficient fuel. -/
def extractDigitsAux : Nat → Nat → List Nat
  | 0, _ => []
  | fuel + 1, c => if c = 0 then [] else c % 10 :: extractDigitsAux fuel (c / 10)

/-- Little-endian digit list produced by the while loop of send_passcode. -/
def extractDigits (c : Nat) : List Nat :=
  extractDigitsAux c c

/-- The 4-cell digits array of send_passcode (main.c:138): zero-initialised,
filled little-endian by the extraction loop. Faithful for candidates in
[0, 9999] (larger values overflow the C array, which is undefined behavior).
A nonpositive int never enters the extraction loop, so its digits stay at the
initial zeros; Int.toNat maps every nonpositive value to 0, which has the
same (empty) extraction. -/
def digitsLE (c : Int) : List Nat :=
  (extractDigits c.toNat ++ List.replicate 4 0).take 4

/-- Digits in the order the code reads them out: digits[3], digits[2],
digits[1], digits[0], i.e. most significant first (main.c:156, main.c:163). -/
def digitsMSB (c : Int) : List Nat :=
  (digitsLE c).reverse

/-- ASCII character printf %d produces for a single decimal digit. -/
def digitChar (d : Nat) : Char :=
  Char.ofNat (48 + d)

/-- The line sprintf builds at main.c:156: the four digits most significant
first, followed by a newline. -/
def fmtLine (c : Int) : String :=
  String.mk ((digitsMSB c).map digitChar) ++ "\n"

/-- HID usage id of the Z key (0x1D), used as the arithmetic base at
main.c:175. -/
def HID_KEY_Z : Nat := 29

/-- HID usage id of the 0 key (0x27), used at main.c:171. -/
def HID_KEY_0 : Nat := 39

/-- HID usage id of the Enter key (0x28), used at main.c:188. -/
def HID_KEY_ENTER : Nat := 40

/-- Digit-to-keycode mapping of main.c:169-176: digit 0 maps to HID_KEY_0,
every other digit to HID_KEY_Z + digit. -/
def digitKey (d : Nat) : Nat :=
  if d = 0 then HID_KEY_0 else HID_KEY_Z + d

/-- Observable actions of send_passcode, in program order. -/
inductive Event where
  | logAppend (line : String)
  | press (key : Nat)
  | release
  | delayMs (ms : Nat)
deriving DecidableEq

/-- Keystroke sequence of send_passcode (main.c:161-192): for each digit, most
significant first, press its key, dwell 50 ms, release, dwell 50 ms; then the
same press/release pattern for the Enter key. -/
def keystrokeEvents (c : Int) : List Event :=
  ((digitsMSB c).flatMap fun d =>
    [Event.press (digitKey d), Event.delayMs 50, Event.release, Event.delayMs 50]) ++
  [Event.press HID_KEY_ENTER, Event.delayMs 50, Event.release, Event.delayMs 50]

/-- Full trace of one send_passcode call (main.c:134-193): the log line is
appended (main.c:156-157) before any keystroke event is issued. -/
def sendPasscodeEvents (c : Int) : List Event :=
  Event.logAppend (fmtLine c) :: keystrokeEvents c

/-- Sum of the dwell delays of a trace, in milliseconds. -/
def totalDelayMs (es : List Event) : Nat :=
  (es.map fun e => match e with | Event.delayMs m => m | _ => 0).sum

/-- ESP-IDF success code. -/
def ESP_OK : Int := 0

/-- ESP-IDF generic failure code. -/
def ESP_FAIL : Int := -1

/-- write_line (main.c:99-111): when the log file cannot be opened for
appending, return ESP_FAIL and write nothing; otherwise append the line and
return ESP_OK. openOk models whether fopen(path, "a") succeeds. -/
def write_line (openOk : Bool) (log : List String) (data : String) : Int × List String :=
  if openOk then (ESP_OK, log ++ [data]) else (ESP_FAIL, log)

/-- State view of send_passcode (main.c:134-193): the return value of
write_line is discarded at main.c:157, and the keystroke sequence is emitted
unconditionally afterwards. Returns the log contents after the call together
with the emitted keystroke events. -/
def send_passcode (openOk : Bool) (log : List String) (c : Int) : List String × List Event :=
  let r := write_line openOk log (fmtLine c)
  (r.2, keystrokeEvents c)

/-- Pacing counters of app_main (main.c:294-297, 329-330): attempts since the
last doubling, consecutive attempts since the last full cooldown, and the
current timeout in seconds. -/
structure PacerState where
  attempts : Int
  consecutive : Int
  timeout_seconds : Int
deriving DecidableEq

/-- attempt_limit_timeout_doubled (main.c:294): after this many attempts the
timeout is doubled. -/
def attempt_limit_timeout_doubled : Int := 200

/-- attempt_limit_no_timeouts (main.c:295): number of attempts allowed before
hitting the timeout. -/
def attempt_limit_no_timeouts : Int := 1

/-- leeway_secs (main.c:296): extra seconds to align times. -/
def leeway_secs : Int := 5

/-- Initial value of timeout_seconds (main.c:297). -/
def initial_timeout_seconds : Int := 960 + leeway_secs

/-- Which wait the loop body performs after an attempt. -/
inductive WaitKind where
  | grace
  | cooldown
deriving DecidableEq

/-- Post-attempt pacing of the main loop body (main.c:338-353): increment both
counters; if the attempts counter reached the doubling limit, reset it and
double the timeout, then wait the (new) full timeout and reset the
consecutive counter; else if the consecutive counter is still below the
no-timeout limit, wait a 1000 ms grace period and continue (no reset);
otherwise wait the full timeout and reset the consecutive counter. Returns
the new state, the branch taken, and the wait in milliseconds. -/
def pacerStep (s : PacerState) : PacerState × WaitKind × Int :=
  if s.attempts + 1 = attempt_limit_timeout_doubled then
    (⟨0, 0, s.timeout_seconds * 2⟩, WaitKind.cooldown, s.timeout_seconds * 2 * 1000)
  else if s.consecutive + 1 < attempt_limit_no_timeouts then
    (⟨s.attempts + 1, s.consecutive + 1, s.timeout_seconds⟩, WaitKind.grace, 1000)
  else
    (⟨s.attempts + 1, 0, s.timeout_seconds⟩, WaitKind.cooldown, s.timeout_seconds * 1000)

/-- Pacer state at the start of the main loop (main.c:297, 329-330). -/
def pacerInit : PacerState :=
  ⟨0, 0, initial_timeout_seconds⟩

/-- Pacer state after n completed attempts of a single run. -/
def pacerIter : Nat → PacerState
  | 0 => pacerInit
  | n + 1 => (pacerStep (pacerIter n)).1

/-- Cursor state of the resume skip loop at main.c:319-325: the remaining
dictionary tokens, the passcode variable, and the stdio end-of-file flag. -/
structure ScanState where
  toks : List Int
  p : Int
  eofFlag : Bool
deriving DecidableEq

/-- One execution of the do-while body at main.c:321-325: fscanf the next
token into the passcode variable, or, when the input is exhausted, fail,
set the end-of-file flag and leave the variable unchanged. -/
def scanStep (s : ScanState) : ScanState :=
  match s.toks with
  | [] => ⟨[], s.p, true⟩
  | t :: ts => ⟨ts, t, s.eofFlag⟩

/-- Exit condition of the do-while loop (main.c:325), checked after each
execution of the body. -/
def scanDone (tgt : Int) (s : ScanState) : Prop :=
  s.p = tgt

instance (tgt : Int) (s : ScanState) : Decidable (scanDone tgt s) :=
  inferInstanceAs (Decidable (s.p = tgt))

/-- Result of the skip loop at main.c:319-325 when it terminates: the final
passcode variable, the remaining tokens, and the end-of-file flag at exit.
none when the loop never exits: once the input is exhausted fscanf keeps
failing, the passcode variable never changes, and the condition stays true
forever (the scan has no bound; see scanStep for the divergence proof). -/
def skipScan : List Int → Int → Int → Option (Int × List Int × Bool)
  | [], p, tgt => if p = tgt then some (p, [], true) else none
  | t :: ts, _, tgt => if t = tgt then some (t, ts, false) else skipScan ts t tgt

/-- read_last_passcode (main.c:114-131): fscanf over the log tokens until the
end-of-file flag is set; the passcode variable ends up holding the last token,
or its initial value when there are none (also when the log file cannot be
opened, since app_main ignores the returned error at main.c:308). -/
def read_last_passcode : List Int → Int → Int
  | [], p => p
  | t :: ts, _ => read_last_passcode ts t

/-- Main cracking loop (main.c:331-361) with the device always mounted: while
the end-of-file flag is unset, send the current passcode (appending its log
line) and fscanf the next token (setting the flag at end of input). Returns
the log lines appended, in order. -/
def runLoop : List Int → Int → Bool → List String
  | _, _, true => []
  | [], p, false => [fmtLine p]
  | t :: ts, p, false => fmtLine p :: runLoop ts t false

/-- Resume-and-run portion of app_main (main.c:306-361), with the device
always mounted: read the resume target from the log tokens (the passcode
variable starts at 0, main.c:307), skip through the dictionary tokens to the
target with the do-while scan, then run the main loop. none when the skip
scan never terminates. -/
def app_main_run (dict logToks : List Int) : Option (List String) :=
  match skipScan dict 0 (read_last_passcode logToks 0) with
  | none => none
  | some (p, rest, ef) => some (runLoop rest p ef)

/-- Canonical textual form required by the specification: exactly 4 ASCII
digits, zero-padded, i.e. the standard decimal rendering of the candidate
(Nat.repr) preceded by enough ASCII zeros to reach 4 characters. -/
def zeroPad4 (n : Nat) : String :=
  String.mk (List.replicate (4 - (Nat.repr n).length) '0') ++ Nat.repr n

/-! Helper lemmas about the digit-extraction loop. -/

lemma extractDigitsAux_congr : ∀ (f g c : Nat), c ≤ f → c ≤ g →
    extractDigitsAux f c = extractDigitsAux g c := by
  intro f
  induction f with
  | zero =>
    intro g c hf hg
    have hc : c = 0 := Nat.le_zero.mp hf
    subst hc
    cases g <;> simp [extractDigitsAux]
  | succ f ih =>
    intro g c hf hg
    rcases Nat.eq_zero_or_pos c with hc | hc
    · subst hc
      cases g <;> simp [extractDigitsAux]
    · obtain ⟨g1, rfl⟩ : ∃ g1, g = g1 + 1 := ⟨g - 1, by omega⟩
      have hne : c ≠ 0 := by omega
      simp only [extractDigitsAux, if_neg hne]
      rw [ih g1 (c / 10) (by omega) (by omega)]

lemma extractDigits_pos (n : Nat) (hn : 0 < n) :
    extractDigits n = n % 10 :: extractDigits (n / 10) := by
  obtain ⟨m, rfl⟩ : ∃ m, n = m + 1 := ⟨n - 1, by omega⟩
  show extractDigitsAux (m + 1) (m + 1) = _
  simp only [extractDigitsAux, if_neg (Nat.succ_ne_zero m)]
  rw [extractDigitsAux_congr m ((m + 1) / 10) ((m + 1) / 10) (by omega) le_rfl]
  rfl

/-- The extraction loop computes exactly the little-endian base-10 digit
list of its argument. -/
lemma extractDigits_eq_digits (n : Nat) : extractDigits n = Nat.digits 10 n := by
  induction n using Nat.strong_induction_on with
  | _ n ih =>
    rcases Nat.eq_zero_or_pos n with h0 | h0
    · subst h0
      rw [Nat.digits_zero]
      rfl
    · rw [extractDigits_pos n h0, Nat.digits_def' (by norm_num : (1:Nat) < 10) h0,
        ih (n / 10) (Nat.div_lt_self h0 (by norm_num))]

lemma take4_pad (l : List Nat) (h : l.length ≤ 4) :
    (l ++ List.replicate 4 0).take 4 = l ++ List.replicate (4 - l.length) 0 := by
  rcases l with _ | ⟨a, _ | ⟨b, _ | ⟨c, _ | ⟨d, rest⟩⟩⟩⟩
  · rfl
  · rfl
  · rfl
  · rfl
  · have hr : rest.length = 0 := by
      simp only [List.length_cons] at h
      omega
    have : rest = [] := List.length_eq_zero.mp hr
    subst this
    rfl

lemma digits10_len_le (n : Nat) (h : n < 10000) : (Nat.digits 10 n).length ≤ 4 := by
  rcases Nat.eq_zero_or_pos n with h0 | h0
  · subst h0
    simp
  · rw [Nat.digits_len 10 n (by norm_num) (by omega)]
    have : Nat.log 10 n < 4 := Nat.log_lt_of_lt_pow (by omega) (by norm_num at h ⊢; omega)
    omega

lemma digits10_expand (n : Nat) (h : n < 10000) :
    Nat.digits 10 n ++ List.replicate (4 - (Nat.digits 10 n).length) 0 =
      [n % 10, n / 10 % 10, n / 100 % 10, n / 1000 % 10] := by
  have h10 : (1:Nat) < 10 := by norm_num
  rcases Nat.eq_zero_or_pos n with h0 | h0
  · subst h0
    rw [Nat.digits_zero]
    rfl
  rw [Nat.digits_def' h10 h0]
  rcases Nat.eq_zero_or_pos (n / 10) with h1 | h1
  · rw [h1, Nat.digits_zero, show n / 100 = 0 by omega, show n / 1000 = 0 by omega]
    rfl
  rw [Nat.digits_def' h10 h1, show n / 10 / 10 = n / 100 by omega]
  rcases Nat.eq_zero_or_pos (n / 100) with h2 | h2
  · rw [h2, Nat.digits_zero, show n / 1000 = 0 by omega]
    rfl
  rw [Nat.digits_def' h10 h2, show n / 100 / 10 = n / 1000 by omega]
  rcases Nat.eq_zero_or_pos (n / 1000) with h3 | h3
  · rw [h3, Nat.digits_zero]
    rfl
  rw [Nat.digits_def' h10 h3, show n / 1000 / 10 = 0 by omega, Nat.digits_zero]
  rfl

/-- Closed form of the digits array read out most-significant first, for
candidates in the range the 4-cell array supports. -/
lemma digitsMSB_spec (c : Int) (h0 : 0 ≤ c) (h9 : c ≤ 9999) :
    digitsMSB c =
      [c.toNat / 1000 % 10, c.toNat / 100 % 10, c.toNat / 10 % 10, c.toNat % 10] := by
  have hn : c.toNat < 10000 := by omega
  unfold digitsMSB digitsLE
  rw [extractDigits_eq_digits, take4_pad _ (digits10_len_le _ hn), digits10_expand _ hn]
  rfl

/-! Bridge between the ASCII digit characters of the embedding and the ones
Nat.repr produces, so the logged line can be compared with the standard
decimal rendering. -/

lemma digitChar_eq_core (d : Nat) (h : d < 10) : Nat.digitChar d = digitChar d := by
  interval_cases d <;> rfl

lemma toDigitsCore_eq (fuel : Nat) : ∀ (n : Nat) (acc : List Char), 0 < n → n ≤ fuel →
    Nat.toDigitsCore 10 fuel n acc =
      ((Nat.digits 10 n).map Nat.digitChar).reverse ++ acc := by
  induction fuel with
  | zero =>
    intro n acc hpos hle
    omega
  | succ fuel ih =>
    intro n acc hpos hle
    rw [Nat.toDigitsCore]
    rcases Nat.eq_zero_or_pos (n / 10) with h1 | h1
    · rw [Nat.digits_def' (by norm_num : (1:Nat) < 10) hpos, h1, Nat.digits_zero]
      simp [h1]
    · have hne : n / 10 ≠ 0 := by omega
      simp only [if_neg hne]
      rw [ih (n / 10) _ h1 (by omega),
        Nat.digits_def' (by norm_num : (1:Nat) < 10) hpos]
      simp

lemma toDigits_eq (n : Nat) (hpos : 0 < n) :
    Nat.toDigits 10 n = ((Nat.digits 10 n).map Nat.digitChar).reverse := by
  rw [Nat.toDigits, toDigitsCore_eq (n + 1) n [] hpos (by omega)]
  simp

/-- The characters sprintf produces for the digits array, compared with the
zero-padded standard decimal rendering. -/
lemma digitsMSB_chars (c : Int) (h0 : 0 ≤ c) (h9 : c ≤ 9999) :
    (digitsMSB c).map digitChar =
      List.replicate (4 - (Nat.repr c.toNat).length) '0' ++ (Nat.repr c.toNat).data := by
  have hn : c.toNat < 10000 := by omega
  rcases Nat.eq_zero_or_pos c.toNat with hz | hz
  · rw [hz]
    have hc : c = 0 := by omega
    subst hc
    rfl
  have hdata : (Nat.repr c.toNat).data = Nat.toDigits 10 c.toNat := rfl
  have hlen : (Nat.repr c.toNat).length = (Nat.digits 10 c.toNat).length := by
    show (Nat.toDigits 10 c.toNat).length = _
    rw [toDigits_eq _ hz]
    simp
  rw [hdata, hlen, toDigits_eq _ hz]
  unfold digitsMSB digitsLE
  rw [extractDigits_eq_digits, take4_pad _ (digits10_len_le _ hn)]
  rw [List.reverse_append, List.reverse_replicate, List.map_append, List.map_replicate]
  congr 1
  rw [List.map_reverse]
  exact congrArg List.reverse (List.map_congr_left fun d hd =>
    (digitChar_eq_core d (Nat.digits_lt_base (by norm_num) hd)).symm)

/-! Helper lemmas about the pacer, the resume scan and the main loop. -/

lemma pacerStep_doubling (s : PacerState)
    (h : s.attempts + 1 = attempt_limit_timeout_doubled) :
    pacerStep s =
      (⟨0, 0, s.timeout_seconds * 2⟩, WaitKind.cooldown, s.timeout_seconds * 2 * 1000) := by
  unfold pacerStep
  rw [if_pos h]

lemma pacerStep_normal (s : PacerState)
    (h1 : s.attempts + 1 ≠ attempt_limit_timeout_doubled) (h2 : 0 ≤ s.consecutive) :
    pacerStep s =
      (⟨s.attempts + 1, 0, s.timeout_seconds⟩, WaitKind.cooldown,
        s.timeout_seconds * 1000) := by
  unfold pacerStep
  rw [if_neg h1, if_neg (by simp only [attempt_limit_no_timeouts]; omega)]

/-- Closed form of the pacer state after n completed attempts: the attempts
counter cycles modulo 200 and the timeout has doubled once per completed
block of 200 attempts. -/
lemma pacerIter_closed (n : Nat) :
    pacerIter n =
      ⟨((n % 200 : Nat) : Int), 0, initial_timeout_seconds * 2 ^ (n / 200)⟩ := by
  induction n with
  | zero =>
    simp [pacerIter, pacerInit]
  | succ n ih =>
    have hstep : pacerIter (n + 1) = (pacerStep (pacerIter n)).1 := rfl
    rw [hstep, ih]
    by_cases hc : n % 200 = 199
    · rw [pacerStep_doubling _ (by simp only [attempt_limit_timeout_doubled]; omega)]
      have e1 : (n + 1) % 200 = 0 := by omega
      have e2 : (n + 1) / 200 = n / 200 + 1 := by omega
      rw [e1, e2, pow_succ]
      simp [mul_assoc]
    · rw [pacerStep_normal _ (by simp only [attempt_limit_timeout_doubled]; omega)
        (by norm_num)]
      have e1 : (n + 1) % 200 = n % 200 + 1 := by omega
      have e2 : (n + 1) / 200 = n / 200 := by omega
      rw [e1, e2]
      simp

/-- The main loop appends the line of the current passcode and then one line
per remaining token, in order. -/
lemma runLoop_false (toks : List Int) : ∀ p : Int,
    runLoop toks p false = fmtLine p :: toks.map fmtLine := by
  induction toks with
  | nil => intro p; rfl
  | cons t ts ih =>
    intro p
    show fmtLine p :: runLoop ts t false = _
    rw [ih t]
    rfl

/-- When the resume target occurs in the dictionary, the skip scan consumes
everything up to and including its first occurrence and leaves the passcode
variable holding the target itself. -/
lemma skipScan_found : ∀ (pre post : List Int) (p tgt : Int), tgt ∉ pre →
    skipScan (pre ++ tgt :: post) p tgt = some (tgt, post, false) := by
  intro pre
  induction pre with
  | nil =>
    intro post p tgt _
    simp [skipScan]
  | cons a pre ih =>
    intro post p tgt h
    rw [List.mem_cons] at h
    push_neg at h
    show skipScan ((a :: pre) ++ tgt :: post) p tgt = _
    rw [List.cons_append]
    show (if a = tgt then _ else skipScan (pre ++ tgt :: post) a tgt) = _
    rw [if_neg (fun ha => h.1 ha.symm), ih post a tgt h.2]

/-- read_last_passcode returns the last log token regardless of the initial
value of the passcode variable. -/
lemma read_last_of_getLast : ∀ (l : List Int) (p tgt : Int),
    l.getLast? = some tgt → read_last_passcode l p = tgt := by
  intro l
  induction l with
  | nil =>
    intro p tgt h
    simp at h
  | cons t ts ih =>
    intro p tgt h
    cases ts with
    | nil =>
      simp at h
      rw [← h]
      rfl
    | cons u us =>
      rw [List.getLast?_cons_cons] at h
      exact ih t tgt h

/-! Claims. -/

/-- C1 (counterexample): with dictionary [0, 1, 7, 42, 9999] and attempt log
[0, 1, 7] (the parsed values of the lines "0000", "0001", "0007"), the restart
does NOT resume at 42: the first line it appends is "0007" again — the last
logged candidate is re-attempted and re-logged, so the next log line is not
"0042". -/
theorem resume_example_relogs_last :
    app_main_run [0, 1, 7, 42, 9999] [0, 1, 7] =
      some ["0007\n", "0042\n", "9999\n"] ∧
    (["0007\n", "0042\n", "9999\n"] : List String).head? ≠ some "0042\n" :=
  ⟨by decide, by decide⟩

/-- C1 (amended): on restart with a non-empty log whose last entry is the
candidate tgt, first occurring in the dictionary after the prefix pre, the
system skips pre, RE-ATTEMPTS tgt (appending its line once more) and then
continues with the candidates after tgt, in order. -/
theorem resume_skips_prefix_reattempts_last (pre post logToks : List Int) (tgt : Int)
    (h1 : tgt ∉ pre) (h2 : logToks.getLast? = some tgt) :
    app_main_run (pre ++ tgt :: post) logToks =
      some (fmtLine tgt :: post.map fmtLine) := by
  unfold app_main_run
  rw [read_last_of_getLast logToks 0 tgt h2, skipScan_found pre post 0 tgt h1]
  show some (runLoop post tgt false) = _
  rw [runLoop_false post tgt]

/-- C1 (witness): the amended statement at the spec example. -/
theorem resume_skips_prefix_reattempts_last_witness :
    app_main_run ([0, 1] ++ 7 :: [42, 9999]) [0, 1, 7] =
      some (fmtLine 7 :: [(42 : Int), 9999].map fmtLine) :=
  resume_skips_prefix_reattempts_last [0, 1] [42, 9999] [0, 1, 7] 7 (by decide) (by decide)

/-- C2: when the resume target is absent from the dictionary tokens (and the
passcode variable does not already hold it), the skip scan of app_main never
exits: after any number of executions of the do-while body the exit condition
is still false. Startup hangs instead of failing with ResumeTargetNotFound. -/
theorem resume_scan_never_terminates (toks : List Int) (p tgt : Int)
    (h1 : tgt ∉ toks) (h2 : p ≠ tgt) :
    ∀ n : Nat, ¬ scanDone tgt (scanStep^[n] ⟨toks, p, false⟩) := by
  have key : ∀ s : ScanState, tgt ∉ s.toks ∧ s.p ≠ tgt →
      tgt ∉ (scanStep s).toks ∧ (scanStep s).p ≠ tgt := by
    intro s hs
    obtain ⟨hs1, hs2⟩ := hs
    cases hts : s.toks with
    | nil =>
      have hred : scanStep s = ⟨[], s.p, true⟩ := by
        unfold scanStep
        rw [hts]
      rw [hred]
      exact ⟨by simp, hs2⟩
    | cons t ts =>
      rw [hts, List.mem_cons] at hs1
      push_neg at hs1
      have hred : scanStep s = ⟨ts, t, s.eofFlag⟩ := by
        unfold scanStep
        rw [hts]
      rw [hred]
      exact ⟨hs1.2, fun ht => hs1.1 ht.symm⟩
  have inv : ∀ n : Nat, tgt ∉ (scanStep^[n] (⟨toks, p, false⟩ : ScanState)).toks ∧
      (scanStep^[n] (⟨toks, p, false⟩ : ScanState)).p ≠ tgt := by
    intro n
    induction n with
    | zero => exact ⟨h1, h2⟩
    | succ n ihn =>
      rw [Function.iterate_succ_apply']
      exact key _ ihn
  intro n
  exact (inv n).2

/-- C2 (witness): with dictionary [1, 2, 3] and resume target 5, the scan has
not exited after 7 body executions. -/
theorem resume_scan_never_terminates_witness :
    ¬ scanDone 5 (scanStep^[7] ⟨[1, 2, 3], 0, false⟩) :=
  resume_scan_never_terminates [1, 2, 3] 0 5 (by decide) (by decide) 7

/-- C3 (counterexample): with dictionary [5, 0, 3] and an empty log, a
complete run appends only ["0000", "0003"]: the resume target defaults to 0,
so the scan silently consumes every entry before the first 0 and the run does
not produce [c1, ..., cn]. -/
theorem empty_log_run_not_full_dictionary :
    app_main_run [5, 0, 3] [] = some ["0000\n", "0003\n"] ∧
    some ["0000\n", "0003\n"] ≠ some (([5, 0, 3] : List Int).map fmtLine) :=
  ⟨by decide, by decide⟩

/-- C3 (amended): with an empty attempt log the resume target defaults to 0,
and the skip scan consumes dictionary entries up to and including the first
occurrence of 0; for a dictionary whose FIRST candidate is 0 (as in the spec
example) a complete run therefore appends exactly one line per dictionary
candidate, in dictionary order. -/
theorem empty_log_run_starts_at_first_zero (ds : List Int) :
    app_main_run (0 :: ds) [] = some ((0 :: ds).map fmtLine) := by
  show some (runLoop ds 0 false) = _
  rw [runLoop_false ds 0]
  rfl

/-- C4: in the trace of a send_passcode call, no key-press event precedes the
log append of that candidate: the append is the first event of the trace
(main.c:156-157 precede main.c:161-192). -/
theorem log_append_precedes_any_press (c : Int) (i : Nat) (k : Nat)
    (h : (sendPasscodeEvents c).get? i = some (Event.press k)) :
    ∃ j, j < i ∧ (sendPasscodeEvents c).get? j = some (Event.logAppend (fmtLine c)) := by
  cases i with
  | zero => simp [sendPasscodeEvents] at h
  | succ i => exact ⟨0, Nat.succ_pos i, rfl⟩

/-- C4 (witness): in the trace of send_passcode(7), the first press (index 1,
the key for digit 0) is preceded by the log append. -/
theorem log_append_precedes_any_press_witness :
    ∃ j, j < 1 ∧ (sendPasscodeEvents 7).get? j = some (Event.logAppend (fmtLine 7)) :=
  log_append_precedes_any_press 7 1 (digitKey 0) (by decide)

/-- C5: across a run the cooldown is non-decreasing, equals the base value
doubled once per completed block of 200 attempts, and the attempts counter
cycles modulo the doubling threshold (it is reset to 0 exactly when it
reaches 200). -/
theorem cooldown_monotone_doubles_per_200 (n : Nat) :
    (pacerIter n).timeout_seconds = initial_timeout_seconds * 2 ^ (n / 200) ∧
    (pacerIter n).attempts = ((n % 200 : Nat) : Int) ∧
    (pacerIter n).timeout_seconds ≤ (pacerIter (n + 1)).timeout_seconds := by
  refine ⟨by rw [pacerIter_closed], by rw [pacerIter_closed], ?_⟩
  rw [pacerIter_closed, pacerIter_closed]
  have hpow : (2 : Int) ^ (n / 200) ≤ 2 ^ ((n + 1) / 200) :=
    pow_le_pow_right₀ one_le_two (by omega)
  have hinit : (0 : Int) ≤ initial_timeout_seconds := by
    norm_num [initial_timeout_seconds, leeway_secs]
  exact mul_le_mul_of_nonneg_left hpow hinit

/-- C6: a failed log append is not fatal. When the log file cannot be opened,
write_line reports ESP_FAIL, but send_passcode discards that result: the log
is left unwritten and the full keystroke sequence is still emitted for the
unlogged candidate (here candidate 7), and the run carries on. -/
theorem failed_log_append_not_fatal :
    (write_line false [] (fmtLine 7)).1 = ESP_FAIL ∧
    (send_passcode false [] 7).1 = [] ∧
    (send_passcode false [] 7).2 = keystrokeEvents 7 ∧
    (send_passcode false [] 7).2 ≠ [] :=
  ⟨rfl, rfl, rfl, by decide⟩

/-- C7: for a candidate in [0, 9999] the keystroke sequence is exactly 4
press/release pairs, one per decimal digit most-significant first (each
release directly after its own press, separated by 50 ms dwells), followed by
exactly one press/release pair for the Enter key, and the summed dwell time
is (4 x 2 + 2) x 50 ms. -/
theorem emit_shape_and_duration (c : Int) (h0 : 0 ≤ c) (h9 : c ≤ 9999) :
    keystrokeEvents c =
      [Event.press (digitKey (c.toNat / 1000 % 10)), Event.delayMs 50, Event.release,
        Event.delayMs 50,
       Event.press (digitKey (c.toNat / 100 % 10)), Event.delayMs 50, Event.release,
        Event.delayMs 50,
       Event.press (digitKey (c.toNat / 10 % 10)), Event.delayMs 50, Event.release,
        Event.delayMs 50,
       Event.press (digitKey (c.toNat % 10)), Event.delayMs 50, Event.release,
        Event.delayMs 50,
       Event.press HID_KEY_ENTER, Event.delayMs 50, Event.release, Event.delayMs 50] ∧
    totalDelayMs (keystrokeEvents c) = (4 * 2 + 2) * 50 := by
  have hd := digitsMSB_spec c h0 h9
  refine ⟨?_, ?_⟩
  · unfold keystrokeEvents
    rw [hd]
    simp
  · unfold keystrokeEvents
    rw [hd]
    simp [totalDelayMs]

/-- C7 (witness): the emission shape at candidate 7. -/
theorem emit_shape_and_duration_witness :
    keystrokeEvents 7 =
      [Event.press (digitKey ((7 : Int).toNat / 1000 % 10)), Event.delayMs 50, Event.release,
        Event.delayMs 50,
       Event.press (digitKey ((7 : Int).toNat / 100 % 10)), Event.delayMs 50, Event.release,
        Event.delayMs 50,
       Event.press (digitKey ((7 : Int).toNat / 10 % 10)), Event.delayMs 50, Event.release,
        Event.delayMs 50,
       Event.press (digitKey ((7 : Int).toNat % 10)), Event.delayMs 50, Event.release,
        Event.delayMs 50,
       Event.press HID_KEY_ENTER, Event.delayMs 50, Event.release, Event.delayMs 50] ∧
    totalDelayMs (keystrokeEvents 7) = (4 * 2 + 2) * 50 :=
  emit_shape_and_duration 7 (by decide) (by decide)

/-- C8: for a candidate in [0, 9999] the appended line is exactly the
zero-padded 4-character decimal rendering of the candidate followed by a
newline. -/
theorem log_line_zero_padded_4 (c : Int) (h0 : 0 ≤ c) (h9 : c ≤ 9999) :
    fmtLine c = zeroPad4 c.toNat ++ "\n" := by
  have hchars := digitsMSB_chars c h0 h9
  unfold fmtLine zeroPad4
  rw [hchars]
  rfl

/-- C8 (witness): candidate 7 is logged as "0007" plus newline. -/
theorem log_line_zero_padded_4_witness :
    fmtLine 7 = zeroPad4 (7 : Int).toNat ++ "\n" ∧ fmtLine 7 = "0007\n" ∧
    fmtLine 0 = "0000\n" :=
  ⟨log_line_zero_padded_4 7 (by decide) (by decide), by decide, by decide⟩

/-- C9: with attempt_limit_no_timeouts = 1 the grace branch is unreachable:
the consecutive counter (never negative in a run) is incremented before the
comparison, so the comparison is never true and every completed attempt falls
into a full-cooldown branch. -/
theorem grace_branch_unreachable (s : PacerState) (h : 0 ≤ s.consecutive) :
    (pacerStep s).2.1 = WaitKind.cooldown := by
  unfold pacerStep
  split_ifs with h1 h2
  · rfl
  · exfalso
    simp only [attempt_limit_no_timeouts] at h2
    omega
  · rfl

/-- C9 (witness): the branch taken from the initial counters is the full
cooldown. -/
theorem grace_branch_unreachable_witness :
    (pacerStep ⟨0, 0, 965⟩).2.1 = WaitKind.cooldown :=
  grace_branch_unreachable ⟨0, 0, 965⟩ (by decide)

/-- C10: on the attempt whose increment makes the attempts counter reach the
doubling limit, the timeout is doubled first and that very attempt waits the
new doubled timeout (in ms); the consecutive counter is reset to 0 and the
branch taken is the cooldown branch, not the grace branch. -/
theorem doubling_attempt_waits_new_cooldown (s : PacerState)
    (h : s.attempts + 1 = attempt_limit_timeout_doubled) :
    pacerStep s =
      (⟨0, 0, s.timeout_seconds * 2⟩, WaitKind.cooldown,
        s.timeout_seconds * 2 * 1000) := by
  unfold pacerStep
  rw [if_pos h]

/-- C10 (witness): the doubling attempt from counters (199, 0) and timeout
965 s waits 1930000 ms = 2 x 965 s. -/
theorem doubling_attempt_waits_new_cooldown_witness :
    pacerStep ⟨199, 0, 965⟩ =
      (⟨0, 0, (965 : Int) * 2⟩, WaitKind.cooldown, (965 : Int) * 2 * 1000) :=
  doubling_attempt_waits_new_cooldown ⟨199, 0, 965⟩ (by decide)
